import Mathlib

/-!
# teo-logger: a shallow embedding of `lib/logger.js`

The module formats levelled log messages and routes them: the cluster master
writes with `console.log`, a cluster worker forwards a payload to the master
with `cluster.worker.process.send`.

JavaScript values are modelled by `Value`.  An object is described by the
answers it gives to the operations the logger applies to it: `instanceof Error`,
reading `stack` (an accessor may answer, and may throw), calling its `toString`
method, and the abstract operation ToString that `Array.prototype.join` uses.
A call yields an `Outcome`: the
trace of calls made to the host (`console.log`, `console.error`,
`process.send`, `JSON.stringify`, the free identifier `logger`) followed by a
normal return or a thrown value.
-/

namespace TeoLogger

/-! ## Values -/

/-- Observable behaviour of a JavaScript object, over the type `V` of values. -/
structure Obj (V : Type) where
  /-- Whether `o instanceof Error` holds. -/
  isError : Bool
  /-- Value of the data property `message` (`undefined` when absent). -/
  message : V
  /-- Completion of the property read `o.stack`: the value of a data property
  (`undefined` when absent), or what an accessor returns or throws. -/
  stack : Except V V
  /-- Completion of the method call `o.toString()`: a returned or a thrown value. -/
  toStringCall : Except V V
  /-- Completion of the abstract operation ToString applied to `o`. -/
  coerce : Except V String

/-- JavaScript values.  A number is represented by the text that
Number::toString gives for it; the logger performs no arithmetic. -/
inductive Value where
  | undefined
  | null
  | boolean (b : Bool)
  | number (text : String)
  | string (s : String)
  | symbol (description : String)
  | object (o : Obj Value)

/-- An `Error` instance created by the engine or by `new Error(message)`;
`stack` is the stack-trace text. -/
def mkError (name message stack : String) : Value :=
  .object
    { isError := true
      message := .string message
      stack := .ok (.string stack)
      toStringCall := .ok (.string (name ++ ": " ++ message))
      coerce := .ok (name ++ ": " ++ message) }

/-- A `TypeError` raised by the engine (the frame lines of its stack are left out). -/
def typeError (message : String) : Value :=
  mkError "TypeError" message ("TypeError: " ++ message)

/-- A `ReferenceError` raised by the engine. -/
def referenceError (message : String) : Value :=
  mkError "ReferenceError" message ("ReferenceError: " ++ message)

/-- The `typeof` operator. -/
def typeOf : Value → String
  | .undefined => "undefined"
  | .null => "object"
  | .boolean _ => "boolean"
  | .number _ => "number"
  | .string _ => "string"
  | .symbol _ => "symbol"
  | .object _ => "object"

/-- The test `v instanceof Error`. -/
def instanceofError : Value → Bool
  | .object o => o.isError
  | _ => false

/-- The property read `v.stack`. -/
def getStack : Value → Except Value Value
  | .undefined => .error (typeError "Cannot read properties of undefined (reading 'stack')")
  | .null => .error (typeError "Cannot read properties of null (reading 'stack')")
  | .object o => o.stack
  | _ => .ok .undefined

/-- The method call `v.toString()`. -/
def callToString : Value → Except Value Value
  | .undefined => .error (typeError "Cannot read properties of undefined (reading 'toString')")
  | .null => .error (typeError "Cannot read properties of null (reading 'toString')")
  | .boolean b => .ok (.string (if b then "true" else "false"))
  | .number text => .ok (.string text)
  | .string s => .ok (.string s)
  | .symbol description => .ok (.string ("Symbol(" ++ description ++ ")"))
  | .object o => o.toStringCall

/-- The abstract operation ToString of ECMAScript. -/
def ToString : Value → Except Value String
  | .undefined => .ok "undefined"
  | .null => .ok "null"
  | .boolean b => .ok (if b then "true" else "false")
  | .number text => .ok text
  | .string s => .ok s
  | .symbol _ => .error (typeError "Cannot convert a Symbol value to a string")
  | .object o => o.coerce

/-- The text `join` takes for one element: the empty string for `undefined`
and `null`, ToString of the element otherwise. -/
def joinText : Value → Except Value String
  | .undefined => .ok ""
  | .null => .ok ""
  | element => ToString element

/-- The loop of `Array.prototype.join`: `k` is the index of the next element and
`R` the text built so far. -/
def joinLoop (sep : String) : List Value → Nat → String → Except Value String
  | [], _, R => .ok R
  | element :: rest, k, R =>
    let R := if k > 0 then R ++ sep else R
    match joinText element with
    | .error e => .error e
    | .ok next => joinLoop sep rest (k + 1) (R ++ next)

/-- The call `array.join(sep)`, whose value is a string whenever it returns. -/
def arrayJoin (array : List Value) (sep : String) : Except Value Value :=
  match joinLoop sep array 0 "" with
  | .error e => .error e
  | .ok R => .ok (.string R)

/-! ## Host environment and effects -/

/-- The `data` record of a forwarded payload. -/
structure PayloadData where
  message : String
  workerID : Nat
  pid : Nat
deriving DecidableEq, Repr

/-- The record handed to `cluster.worker.process.send`. -/
structure Payload where
  type : String
  data : PayloadData
deriving DecidableEq, Repr

/-- Calls the module makes to its host, in program order. -/
inductive Effect where
  /-- The call `console.log(line)`. -/
  | consoleLog (line : String)
  /-- The call `console.error(v)`. -/
  | consoleError (v : Value)
  /-- The call `cluster.worker.process.send(payload)`. -/
  | send (payload : Payload)
  /-- The call `JSON.stringify(v)`. -/
  | jsonStringify (v : Value)
  /-- The call `logger.error(v)` through the free identifier `logger`. -/
  | loggerError (v : Value)

/-- The five `chalk` styles the module uses. -/
structure Chalk where
  cyan : String → String
  green : String → String
  blue : String → String
  yellow : String → String
  red : String → String

/-- What the module reads from its host. -/
structure Env where
  /-- The flag `cluster.isMaster`. -/
  isMaster : Bool
  /-- The number `cluster.worker.id`. -/
  workerId : Nat
  /-- The number `cluster.worker.process.pid`. -/
  workerPid : Nat
  /-- The text `new Date().toString()`. -/
  now : String
  chalk : Chalk
  /-- Text that `util.format` substitutes for a non-string argument under `%s`. -/
  inspect : Value → String
  /-- Completion of `JSON.stringify(v)`. -/
  jsonStringify : Value → Except Value Value
  /-- Whether the global scope binds the free identifier `logger`. -/
  loggerBound : Bool
  /-- What `process.send(payload)` throws, `none` when it returns. -/
  sendThrows : Payload → Option Value

/-- Result of running a piece of the module: the host calls made, then a
returned value or a thrown one. -/
structure Outcome (α : Type) where
  trace : List Effect
  result : Except Value α

/-- Sequencing: run `m`, and when it returns run `f` on its value. -/
def Outcome.bind {α β : Type} (m : Outcome α) (f : α → Outcome β) : Outcome β :=
  match m.result with
  | .error e => ⟨m.trace, .error e⟩
  | .ok a => ⟨m.trace ++ (f a).trace, (f a).result⟩

/-- A computation without host calls. -/
def Outcome.lift {α : Type} (r : Except Value α) : Outcome α := ⟨[], r⟩

/-- The lines written with `console.log`. -/
def consoleLogs : List Effect → List String
  | [] => []
  | .consoleLog line :: rest => line :: consoleLogs rest
  | _ :: rest => consoleLogs rest

/-- The values written with `console.error`. -/
def consoleErrors : List Effect → List Value
  | [] => []
  | .consoleError v :: rest => v :: consoleErrors rest
  | _ :: rest => consoleErrors rest

/-- The payloads handed to `process.send`. -/
def sends : List Effect → List Payload
  | [] => []
  | .send payload :: rest => payload :: sends rest
  | _ :: rest => sends rest

/-- The values handed to `JSON.stringify`. -/
def stringified : List Effect → List Value
  | [] => []
  | .jsonStringify v :: rest => v :: stringified rest
  | _ :: rest => stringified rest

/-! ## `util.format` -/

/-- The argument text under `%s`: a string stands for itself. -/
def formatArg (inspect : Value → String) : Value → String
  | .string s => s
  | v => inspect v

/-- Arguments left over after the format string, each after a blank. -/
def formatRest (inspect : Value → String) : List Value → List Char
  | [] => []
  | a :: rest => ' ' :: ((formatArg inspect a).data ++ formatRest inspect rest)

/-- Scan of the format string: `%s` takes the next argument, `%%` is a percent
sign, any other character is copied. -/
def formatChars (inspect : Value → String) : List Char → List Value → List Char
  | [], args => formatRest inspect args
  | c :: d :: rest, args =>
    if c = '%' ∧ d = 's' then
      match args with
      | a :: args => (formatArg inspect a).data ++ formatChars inspect rest args
      | [] => c :: d :: formatChars inspect rest []
    else if c = '%' ∧ d = '%' then '%' :: formatChars inspect rest args
    else c :: formatChars inspect (d :: rest) args
  | [c], args => c :: formatRest inspect args

/-- The call `util.format(fmt, ...args)` for the directives the module uses. -/
def utilFormat (inspect : Value → String) (fmt : String) (args : List Value) : String :=
  ⟨formatChars inspect fmt.data args⟩

/-! ## The module -/

/-- The loop `errors.forEach(err => parsed.push(...))` of `_parseErrors`. -/
def parseErrorsLoop : List Value → List Value → Except Value (List Value)
  | [], parsed => .ok parsed
  | err :: rest, parsed =>
    match (if instanceofError err then getStack err else callToString err) with
    | .error e => .error e
    | .ok message => parseErrorsLoop rest (parsed ++ [message])

/-- Function `_parseErrors`. -/
def _parseErrors (arguments : List Value) : Except Value (List Value) :=
  parseErrorsLoop arguments []

/-- Function `_parseMessage`. -/
def _parseMessage (env : Env) (arguments : List Value) : Outcome Value :=
  match arrayJoin arguments "|" with
  | .error e => ⟨[], .error e⟩
  | .ok message =>
    if typeOf message = "string" then ⟨[], .ok message⟩
    else
      match env.jsonStringify message with
      | .ok json => ⟨[.jsonStringify message], .ok json⟩
      | .error e =>
        -- catch (e) { logger.error(e.stack); }
        if env.loggerBound then
          match getStack e with
          | .error e2 => ⟨[.jsonStringify message], .error e2⟩
          | .ok s => ⟨[.jsonStringify message, .loggerError s], .ok message⟩
        else ⟨[.jsonStringify message], .error (referenceError "logger is not defined")⟩

/-- Function `_format`. -/
def _format (env : Env) (message : String) : String :=
  utilFormat env.inspect "[%s] %s" [.string (env.chalk.cyan env.now), .string message]

/-- Function `_log`. -/
def _log (env : Env) (message : String) : Outcome Unit :=
  if env.isMaster then
    ⟨[.consoleLog (_format env message)], .ok ()⟩
  else
    let payload : Payload :=
      { type := "logging"
        data := { message := message, workerID := env.workerId, pid := env.workerPid } }
    ⟨[.send payload],
      match env.sendThrows payload with
      | none => .ok ()
      | some e => .error e⟩

/-- Entry point `success`. -/
def success (env : Env) (arguments : List Value) : Outcome Unit :=
  (_parseMessage env arguments).bind fun message =>
    _log env (env.chalk.green (utilFormat env.inspect "Success: %s" [message]))

/-- Entry point `info`. -/
def info (env : Env) (arguments : List Value) : Outcome Unit :=
  (_parseMessage env arguments).bind fun message =>
    _log env (env.chalk.blue (utilFormat env.inspect "Info: %s" [message]))

/-- Entry point `warn`. -/
def warn (env : Env) (arguments : List Value) : Outcome Unit :=
  (_parseMessage env arguments).bind fun message =>
    _log env (env.chalk.yellow (utilFormat env.inspect "Warn: %s" [message]))

/-- The `try` block of `error`. -/
def errorBody (env : Env) (arguments : List Value) : Outcome Unit :=
  (Outcome.lift (_parseErrors arguments)).bind fun errors =>
    (_parseMessage env errors).bind fun message =>
      _log env (env.chalk.red (utilFormat env.inspect "%s" [message]))

/-- Entry point `error`: the `try` block, then `catch (e) { console.error(e.stack) }`. -/
def error (env : Env) (arguments : List Value) : Outcome Unit :=
  let body := errorBody env arguments
  match body.result with
  | .ok u => ⟨body.trace, .ok u⟩
  | .error e =>
    match getStack e with
    | .error e2 => ⟨body.trace, .error e2⟩
    | .ok s => ⟨body.trace ++ [.consoleError s], .ok ()⟩

/-- Entry point `fatal`. -/
def fatal (env : Env) (arguments : List Value) : Outcome Unit :=
  (_parseMessage env arguments).bind fun message =>
    _log env (env.chalk.red (utilFormat env.inspect "Fatal: %s" [message]))

/-- Entry point `log`. -/
def log (env : Env) (arguments : List Value) : Outcome Unit :=
  (_parseMessage env arguments).bind fun message =>
    _log env (utilFormat env.inspect "%s" [message])

/-! ## Reference definitions and example values -/

/-- An error-like value: a string, or an `Error` instance that has a stack (the
read of its `stack` returns). -/
def ErrorLike : Value → Prop
  | .string _ => True
  | .object o => o.isError = true ∧ ∃ s, o.stack = .ok s
  | _ => False

/-- The text the specification gives for one error-like input: the stack of an
`Error` instance, the default string conversion of any other value. -/
def errorTextSpec (v : Value) : Except Value Value :=
  if instanceofError v then getStack v
  else
    match ToString v with
    | .error e => .error e
    | .ok s => .ok (.string s)

/-- The plain object `o` after `o.self = o`: `Object.prototype.toString` answers
for it, and the cycle shows only to `JSON.stringify`. -/
def cyclicObject : Value :=
  .object
    { isError := false
      message := .undefined
      stack := .ok .undefined
      toStringCall := .ok (.string "[object Object]")
      coerce := .ok "[object Object]" }

/-- An object whose `toString` method is `function () { throw null; }`. -/
def nullThrower : Value :=
  .object
    { isError := false
      message := .undefined
      stack := .ok .undefined
      toStringCall := .error .null
      coerce := .error .null }

/-- An `Error` instance whose `stack` accessor throws a `TypeError`. -/
def stackless : Value :=
  .object
    { isError := true
      message := .string "boom"
      stack := .error (typeError "stack is not available")
      toStringCall := .ok (.string "Error: boom")
      coerce := .ok "Error: boom" }

/-- An object whose `toString` method throws `stackless`. -/
def stacklessThrower : Value :=
  .object
    { isError := false
      message := .undefined
      stack := .ok .undefined
      toStringCall := .error stackless
      coerce := .error stackless }

/-- The styles of `chalk` with colour support: ANSI codes around the text. -/
def ansiChalk : Chalk :=
  { cyan := fun s => "\x1b[36m" ++ s ++ "\x1b[39m"
    green := fun s => "\x1b[32m" ++ s ++ "\x1b[39m"
    blue := fun s => "\x1b[34m" ++ s ++ "\x1b[39m"
    yellow := fun s => "\x1b[33m" ++ s ++ "\x1b[39m"
    red := fun s => "\x1b[31m" ++ s ++ "\x1b[39m" }

/-- A cluster master. -/
def primaryEnv : Env :=
  { isMaster := true
    workerId := 0
    workerPid := 0
    now := "Thu Nov 24 2016 10:00:00 GMT+0200 (EET)"
    chalk := ansiChalk
    inspect := fun _ => "[object Object]"
    jsonStringify := fun _ => .error (typeError "Converting circular structure to JSON")
    loggerBound := false
    sendThrows := fun _ => none }

/-- A cluster worker with id 3 and pid 4471. -/
def workerEnv : Env :=
  { primaryEnv with isMaster := false, workerId := 3, workerPid := 4471 }

/-! ## Auxiliary facts -/

theorem format_one (inspect : Value → String) (n : String) :
    utilFormat inspect "%s" [.string n] = n := by
  simp [utilFormat, formatChars, formatArg, formatRest]

theorem format_success (inspect : Value → String) (n : String) :
    utilFormat inspect "Success: %s" [.string n] = "Success: " ++ n := by
  apply String.ext
  simp [utilFormat, formatChars, formatArg, formatRest]

theorem format_line (env : Env) (message : String) :
    _format env message = "[" ++ env.chalk.cyan env.now ++ "] " ++ message := by
  apply String.ext
  simp [_format, utilFormat, formatChars, formatArg, formatRest]

theorem joinLoop_pos (sep : String) (array : List Value) (texts : List String)
    (h : List.Forall₂ (fun v s => joinText v = .ok s) array texts) (k : Nat) (hk : 0 < k)
    (R : String) : joinLoop sep array k R = .ok (String.intercalate.go R sep texts) := by
  induction h generalizing k R with
  | nil => simp [joinLoop, String.intercalate.go]
  | cons hv _ ih =>
    simp only [joinLoop, hv, hk, if_true, String.intercalate.go]
    exact ih (k + 1) (Nat.succ_pos k) _

theorem joinLoop_zero (sep : String) (array : List Value) (texts : List String)
    (h : List.Forall₂ (fun v s => joinText v = .ok s) array texts) :
    joinLoop sep array 0 "" = .ok (String.intercalate sep texts) := by
  cases h with
  | nil => simp [joinLoop, String.intercalate]
  | cons hv hrest =>
    simp only [joinLoop, hv, String.intercalate]
    have h0 : ∀ a : String, (if 0 > 0 then "" ++ sep else "") ++ a = a := by
      intro a
      apply String.ext
      simp
    rw [h0]
    exact joinLoop_pos sep _ _ hrest 1 Nat.one_pos _

theorem arrayJoin_string (array : List Value) (sep : String) (v : Value)
    (h : arrayJoin array sep = .ok v) : ∃ s, v = .string s := by
  unfold arrayJoin at h
  split at h
  · cases h
  · cases h
    exact ⟨_, rfl⟩

theorem parseMessage_of_join (env : Env) (arguments : List Value) (v : Value)
    (h : arrayJoin arguments "|" = .ok v) : _parseMessage env arguments = ⟨[], .ok v⟩ := by
  obtain ⟨s, rfl⟩ := arrayJoin_string _ _ _ h
  simp [_parseMessage, h, typeOf]

theorem parseMessage_of_join_error (env : Env) (arguments : List Value) (e : Value)
    (h : arrayJoin arguments "|" = .error e) : _parseMessage env arguments = ⟨[], .error e⟩ := by
  simp [_parseMessage, h]

theorem parseMessage_result (env : Env) (arguments : List Value) (m : Value)
    (h : (_parseMessage env arguments).result = .ok m) :
    _parseMessage env arguments = ⟨[], .ok m⟩ := by
  cases hj : arrayJoin arguments "|" with
  | error e =>
    rw [parseMessage_of_join_error env arguments e hj] at h
    cases h
  | ok v =>
    rw [parseMessage_of_join env arguments v hj] at h ⊢
    cases h
    rfl

theorem forall₂_map_string (ss : List String) :
    List.Forall₂ (fun v s => joinText v = .ok s) (ss.map Value.string) ss := by
  induction ss with
  | nil => exact .nil
  | cons a rest ih => exact .cons rfl ih

theorem forall₂_get? {α β : Type} {R : α → β → Prop} {l₁ : List α} {l₂ : List β}
    (h : List.Forall₂ R l₁ l₂) (i : Nat) (a : α) (ha : l₁[i]? = some a) :
    ∃ b, l₂[i]? = some b ∧ R a b := by
  induction h generalizing i with
  | nil => simp at ha
  | cons hab _ ih =>
    cases i with
    | zero =>
      simp at ha
      subst ha
      exact ⟨_, by simp, hab⟩
    | succ j =>
      simp at ha
      simpa using ih j ha

theorem parseErrorsLoop_errorLike (arguments : List Value) (h : ∀ v ∈ arguments, ErrorLike v) :
    ∃ out, (∀ parsed, parseErrorsLoop arguments parsed = .ok (parsed ++ out))
      ∧ List.Forall₂ (fun v m =>
          (if instanceofError v then getStack v else callToString v) = .ok m
          ∧ errorTextSpec v = .ok m ∧ ErrorLike v) arguments out := by
  induction arguments with
  | nil => exact ⟨[], fun parsed => by simp [parseErrorsLoop], .nil⟩
  | cons v rest ih =>
    obtain ⟨out, hloop, hspec⟩ := ih (fun w hw => h w (List.mem_cons_of_mem _ hw))
    have hv := h v (List.mem_cons_self _ _)
    have hstep : ∃ m, (if instanceofError v then getStack v else callToString v) = .ok m
        ∧ errorTextSpec v = .ok m := by
      cases v with
      | string s => exact ⟨.string s, rfl, rfl⟩
      | object o =>
        obtain ⟨ho, s, hs⟩ : o.isError = true ∧ ∃ s, o.stack = .ok s := hv
        exact ⟨s, by simp [instanceofError, ho, getStack, hs],
          by simp [errorTextSpec, instanceofError, ho, getStack, hs]⟩
      | _ => exact absurd hv (by simp [ErrorLike])
    obtain ⟨m, hm1, hm2⟩ := hstep
    refine ⟨m :: out, fun parsed => ?_, .cons ⟨hm1, hm2, hv⟩ hspec⟩
    simp [parseErrorsLoop, hm1, hloop]

theorem format_info (inspect : Value → String) (n : String) :
    utilFormat inspect "Info: %s" [.string n] = "Info: " ++ n := by
  apply String.ext
  simp [utilFormat, formatChars, formatArg, formatRest]

theorem format_warn (inspect : Value → String) (n : String) :
    utilFormat inspect "Warn: %s" [.string n] = "Warn: " ++ n := by
  apply String.ext
  simp [utilFormat, formatChars, formatArg, formatRest]

theorem format_fatal (inspect : Value → String) (n : String) :
    utilFormat inspect "Fatal: %s" [.string n] = "Fatal: " ++ n := by
  apply String.ext
  simp [utilFormat, formatChars, formatArg, formatRest]

theorem bind_of_result {α : Type} (env : Env) (arguments : List Value) (m : Value)
    (h : (_parseMessage env arguments).result = .ok m) (f : Value → Outcome α) :
    (_parseMessage env arguments).bind f = f m := by
  rw [parseMessage_result env arguments m h]
  rfl

theorem log_primary (env : Env) (h : env.isMaster = true) (message : String) :
    _log env message
      = ⟨[.consoleLog ("[" ++ env.chalk.cyan env.now ++ "] " ++ message)], .ok ()⟩ := by
  simp [_log, h, format_line]

theorem log_worker_trace (env : Env) (h : env.isMaster = false) (message : String) :
    (_log env message).trace
      = [.send { type := "logging"
                 data := { message := message, workerID := env.workerId, pid := env.workerPid } }] := by
  simp [_log, h]

theorem errorBody_of_results (env : Env) (arguments errors : List Value) (n : String)
    (h1 : _parseErrors arguments = .ok errors)
    (h2 : (_parseMessage env errors).result = .ok (.string n)) :
    errorBody env arguments = _log env (env.chalk.red n) := by
  have hb : errorBody env arguments
      = (_parseMessage env errors).bind fun message =>
          _log env (env.chalk.red (utilFormat env.inspect "%s" [message])) := by
    simp only [errorBody, h1, Outcome.lift, Outcome.bind]
    cases (_parseMessage env errors).result <;> simp
  rw [hb, bind_of_result env errors _ h2, format_one]

theorem sends_append (t u : List Effect) : sends (t ++ u) = sends t ++ sends u := by
  induction t with
  | nil => rfl
  | cons x rest ih => cases x <;> simp [sends, ih]

theorem consoleLogs_append (t u : List Effect) :
    consoleLogs (t ++ u) = consoleLogs t ++ consoleLogs u := by
  induction t with
  | nil => rfl
  | cons x rest ih => cases x <;> simp [consoleLogs, ih]

theorem parseMessage_quiet (env : Env) (arguments : List Value) :
    sends (_parseMessage env arguments).trace = []
    ∧ consoleLogs (_parseMessage env arguments).trace = [] := by
  cases hj : arrayJoin arguments "|" with
  | error e => rw [parseMessage_of_join_error env arguments e hj]; exact ⟨rfl, rfl⟩
  | ok v => rw [parseMessage_of_join env arguments v hj]; exact ⟨rfl, rfl⟩

theorem bind_sends {α β : Type} (m : Outcome α) (f : α → Outcome β)
    (hm : sends m.trace = []) (hf : ∀ a, sends (f a).trace = []) :
    sends (m.bind f).trace = [] := by
  unfold Outcome.bind
  split
  · exact hm
  · simp [sends_append, hm, hf]

theorem bind_consoleLogs {α β : Type} (m : Outcome α) (f : α → Outcome β)
    (hm : consoleLogs m.trace = []) (hf : ∀ a, consoleLogs (f a).trace = []) :
    consoleLogs (m.bind f).trace = [] := by
  unfold Outcome.bind
  split
  · exact hm
  · simp [consoleLogs_append, hm, hf]

theorem log_primary_sends (env : Env) (h : env.isMaster = true) (message : String) :
    sends (_log env message).trace = [] := by
  rw [log_primary env h]
  rfl

theorem log_worker_consoleLogs (env : Env) (h : env.isMaster = false) (message : String) :
    consoleLogs (_log env message).trace = [] := by
  rw [log_worker_trace env h]
  rfl

theorem error_trace (env : Env) (arguments : List Value) :
    (error env arguments).trace = (errorBody env arguments).trace
    ∨ ∃ s, (error env arguments).trace = (errorBody env arguments).trace ++ [.consoleError s] := by
  cases hr : (errorBody env arguments).result with
  | ok u => exact .inl (by simp [error, hr])
  | error e =>
    cases hs : getStack e with
    | error e2 => exact .inl (by simp [error, hr, hs])
    | ok s => exact .inr ⟨s, by simp [error, hr, hs]⟩

theorem entries_eq_log (env : Env) (arguments : List Value) (n : String)
    (h : (_parseMessage env arguments).result = .ok (.string n)) :
    success env arguments = _log env (env.chalk.green ("Success: " ++ n))
    ∧ info env arguments = _log env (env.chalk.blue ("Info: " ++ n))
    ∧ warn env arguments = _log env (env.chalk.yellow ("Warn: " ++ n))
    ∧ fatal env arguments = _log env (env.chalk.red ("Fatal: " ++ n))
    ∧ log env arguments = _log env n := by
  refine ⟨?_, ?_, ?_, ?_, ?_⟩
  · rw [success, bind_of_result env arguments _ h, format_success]
  · rw [info, bind_of_result env arguments _ h, format_info]
  · rw [warn, bind_of_result env arguments _ h, format_warn]
  · rw [fatal, bind_of_result env arguments _ h, format_fatal]
  · rw [log, bind_of_result env arguments _ h, format_one]

theorem error_eq_log (env : Env) (arguments errors : List Value) (n : String)
    (h1 : _parseErrors arguments = .ok errors)
    (h2 : (_parseMessage env errors).result = .ok (.string n))
    (h3 : (_log env (env.chalk.red n)).result = .ok ()) :
    error env arguments = _log env (env.chalk.red n) := by
  have hb := errorBody_of_results env arguments errors n h1 h2
  simp only [error, hb, h3]
  cases hl : _log env (env.chalk.red n) with
  | mk t r =>
    rw [hl] at h3
    simp at h3
    simp [h3]

/-! ## The message normalizer -/

/-- C3: on strings `_parseMessage` returns, without any host call, the strings in
order with `|` between consecutive ones; a single string is returned unchanged
and three strings give `a|b|c`. -/
theorem parseMessage_strings (env : Env) :
    (∀ ss : List String, ss ≠ [] →
      _parseMessage env (ss.map Value.string) = ⟨[], .ok (.string (String.intercalate "|" ss))⟩)
    ∧ (∀ m : String, _parseMessage env [.string m] = ⟨[], .ok (.string m)⟩)
    ∧ (∀ a b c : String, _parseMessage env [.string a, .string b, .string c]
        = ⟨[], .ok (.string (a ++ "|" ++ b ++ "|" ++ c))⟩) := by
  have key : ∀ ss : List String,
      _parseMessage env (ss.map Value.string) = ⟨[], .ok (.string (String.intercalate "|" ss))⟩ := by
    intro ss
    apply parseMessage_of_join
    simp [arrayJoin, joinLoop_zero "|" _ ss (forall₂_map_string ss)]
  refine ⟨fun ss _ => key ss, fun m => ?_, fun a b c => ?_⟩
  · simpa [String.intercalate, String.intercalate.go] using key [m]
  · simpa [String.intercalate, String.intercalate.go] using key [a, b, c]

/-- Witness for C3: two strings are joined with one `|`. -/
theorem parseMessage_strings_witness :
    _parseMessage primaryEnv [.string "disk", .string "low"] = ⟨[], .ok (.string "disk|low")⟩ :=
  (parseMessage_strings primaryEnv).1 ["disk", "low"] (by simp)

/-- C9 as stated fails: `_parseMessage(null, "a")` returns `|a`, while the default
string forms of the two values joined with `|` give `null|a`. -/
theorem parseMessage_default_string_fails :
    ¬ (∀ (env : Env) (arguments : List Value) (texts : List String),
        2 ≤ arguments.length →
        List.Forall₂ (fun v s => ToString v = .ok s) arguments texts →
        (_parseMessage env arguments).result = .ok (.string (String.intercalate "|" texts))) := by
  intro h
  have h1 := h primaryEnv [.null, .string "a"] ["null", "a"] (by simp)
    (.cons rfl (.cons rfl .nil))
  have h2 : _parseMessage primaryEnv [.null, .string "a"] = ⟨[], .ok (.string "|a")⟩ :=
    parseMessage_of_join _ _ _ rfl
  rw [h2] at h1
  simp [String.intercalate, String.intercalate.go] at h1

/-- C9 amended: when no coercion throws, `_parseMessage` returns, in order and with
`|` between consecutive elements, the empty string for each `undefined` or `null`
element and the default string form of every other element. -/
theorem parseMessage_join_texts (env : Env) (arguments : List Value) (texts : List String)
    (h : List.Forall₂
      (fun v s => match v with
        | .undefined => s = ""
        | .null => s = ""
        | v => ToString v = .ok s) arguments texts) :
    _parseMessage env arguments = ⟨[], .ok (.string (String.intercalate "|" texts))⟩ := by
  apply parseMessage_of_join
  have h2 : List.Forall₂ (fun v s => joinText v = .ok s) arguments texts := by
    refine h.imp ?_
    intro v s hv
    cases v <;> simp_all [joinText]
  simp [arrayJoin, joinLoop_zero "|" _ texts h2]

/-- Witness for C9 amended: `_parseMessage(null, "a", 3, undefined, true)`. -/
theorem parseMessage_join_texts_witness :
    _parseMessage primaryEnv [.null, .string "a", .number "3", .undefined, .boolean true]
      = ⟨[], .ok (.string "|a|3||true")⟩ :=
  parseMessage_join_texts primaryEnv _ ["", "a", "3", "", "true"]
    (.cons rfl (.cons rfl (.cons rfl (.cons rfl (.cons rfl .nil)))))

/-- C10: whenever `join` returns, its value is a string and `_parseMessage` returns
exactly that value with an empty trace: `JSON.stringify` is not called and the
`catch` handler is not entered. -/
theorem parseMessage_dead_branch (env : Env) (arguments : List Value) (joined : Value)
    (h : arrayJoin arguments "|" = .ok joined) :
    typeOf joined = "string"
    ∧ _parseMessage env arguments = ⟨[], .ok joined⟩
    ∧ stringified (_parseMessage env arguments).trace = []
    ∧ (_parseMessage env arguments).trace = [] := by
  have hp := parseMessage_of_join env arguments joined h
  obtain ⟨s, rfl⟩ := arrayJoin_string _ _ _ h
  refine ⟨rfl, hp, ?_, ?_⟩ <;> simp [hp, stringified]

/-- Witness for C10: an object and a number, in an environment whose
`JSON.stringify` throws on every value. -/
theorem parseMessage_dead_branch_witness :
    _parseMessage primaryEnv [cyclicObject, .number "7"]
      = ⟨[], .ok (.string "[object Object]|7")⟩ :=
  (parseMessage_dead_branch primaryEnv [cyclicObject, .number "7"]
    (.string "[object Object]|7") rfl).2.1

/-- C8 at the cyclic object: `_parseMessage(o)` returns the text `[object Object]`
with an empty trace, so nothing reaches `JSON.stringify`, `logger.error` or
`console.error`, whatever `JSON.stringify` would do with `o`. -/
theorem parseMessage_cyclic_no_notice (env : Env) :
    _parseMessage env [cyclicObject] = ⟨[], .ok (.string "[object Object]")⟩ :=
  parseMessage_of_join env _ _ rfl

/-! ## The error normalizer -/

/-- C4: on error-like values `_parseErrors` returns one element per input, in
order: at each index the `stack` of an `Error` instance (whatever its `message`)
and the string itself for a string, which is what the specification asks for. -/
theorem parseErrors_errorLike (arguments : List Value) (h : ∀ v ∈ arguments, ErrorLike v) :
    ∃ parsed, _parseErrors arguments = .ok parsed
      ∧ parsed.length = arguments.length
      ∧ List.Forall₂ (fun v m => errorTextSpec v = .ok m) arguments parsed
      ∧ (∀ (i : Nat) o stack, arguments[i]? = some (.object o) → o.stack = .ok stack →
          parsed[i]? = some stack)
      ∧ (∀ (i : Nat) s, arguments[i]? = some (.string s) → parsed[i]? = some (.string s)) := by
  obtain ⟨parsed, hloop, hspec⟩ := parseErrorsLoop_errorLike arguments h
  have hlen := hspec.length_eq
  refine ⟨parsed, by simpa [_parseErrors] using hloop [], hlen.symm, ?_, ?_, ?_⟩
  · exact hspec.imp (fun v m hvm => hvm.2.1)
  · intro i o stack hi hs
    obtain ⟨m, hm, hr, _, he⟩ := forall₂_get? hspec i _ hi
    have ho : o.isError = true := he.1
    simp [instanceofError, ho, getStack, hs] at hr
    rw [hm, hr]
  · intro i s hi
    obtain ⟨m, hm, hr, _, _⟩ := forall₂_get? hspec i _ hi
    simp [instanceofError, callToString] at hr
    rw [hm, hr]

/-- Witness for C4: `_parseErrors(new Error("boom"), "disk low")`. -/
theorem parseErrors_errorLike_witness :
    ∃ parsed, _parseErrors [mkError "Error" "boom" "Error: boom at main.js:1:7", .string "disk low"]
        = .ok parsed
      ∧ parsed.length = 2
      ∧ List.Forall₂ (fun v m => errorTextSpec v = .ok m)
          [mkError "Error" "boom" "Error: boom at main.js:1:7", .string "disk low"] parsed
      ∧ (∀ (i : Nat) o stack,
          [mkError "Error" "boom" "Error: boom at main.js:1:7", Value.string "disk low"][i]?
            = some (.object o) → o.stack = .ok stack → parsed[i]? = some stack)
      ∧ (∀ (i : Nat) s,
          [mkError "Error" "boom" "Error: boom at main.js:1:7", Value.string "disk low"][i]?
            = some (.string s) → parsed[i]? = some (.string s)) :=
  parseErrors_errorLike [mkError "Error" "boom" "Error: boom at main.js:1:7", .string "disk low"]
    (by
      intro v hv
      simp at hv
      rcases hv with rfl | rfl <;> simp [ErrorLike, mkError])

/-! ## The entry points -/

/-- C5: with `n` the string `_parseMessage` returns for the arguments, `success`,
`info`, `warn` and `fatal` hand the dispatcher `_log` the text `Success: n`,
`Info: n`, `Warn: n`, `Fatal: n` styled green, blue, yellow and red, and `log`
hands it `n` itself. -/
theorem level_wrapping (env : Env) (arguments : List Value) (n : String)
    (h : (_parseMessage env arguments).result = .ok (.string n)) :
    success env arguments = _log env (env.chalk.green ("Success: " ++ n))
    ∧ info env arguments = _log env (env.chalk.blue ("Info: " ++ n))
    ∧ warn env arguments = _log env (env.chalk.yellow ("Warn: " ++ n))
    ∧ fatal env arguments = _log env (env.chalk.red ("Fatal: " ++ n))
    ∧ log env arguments = _log env n :=
  entries_eq_log env arguments n h

/-- Witness for C5: `info("server started")` on the master. -/
theorem level_wrapping_witness :
    info primaryEnv [.string "server started"]
      = _log primaryEnv (primaryEnv.chalk.blue ("Info: " ++ "server started")) :=
  (level_wrapping primaryEnv [.string "server started"] "server started" rfl).2.1

/-- C6: when neither normalizer throws and the dispatch returns, `error` behaves as
the dispatcher applied to the red-styled `_parseMessage` of the elements of
`_parseErrors(arguments)`, with no text added; for `new Error("boom")` that text
is the stack of the error. -/
theorem error_composition (env : Env) :
    (∀ (arguments errors : List Value) (n : String),
      _parseErrors arguments = .ok errors →
      (_parseMessage env errors).result = .ok (.string n) →
      (_log env (env.chalk.red n)).result = .ok () →
      error env arguments = _log env (env.chalk.red n))
    ∧ (∀ stack : String,
      (_log env (env.chalk.red stack)).result = .ok () →
      error env [mkError "Error" "boom" stack] = _log env (env.chalk.red stack)) :=
  ⟨fun arguments errors n h1 h2 h3 => error_eq_log env arguments errors n h1 h2 h3,
    fun stack h3 => error_eq_log env _ [.string stack] stack rfl
      (by rw [parseMessage_of_join env [.string stack] (.string stack) rfl]) h3⟩

/-- Witness for C6: `error(new Error("boom"))` on the master. -/
theorem error_composition_witness :
    error primaryEnv [mkError "Error" "boom" "Error: boom at main.js:1:7"]
      = _log primaryEnv (primaryEnv.chalk.red "Error: boom at main.js:1:7") :=
  (error_composition primaryEnv).1 [mkError "Error" "boom" "Error: boom at main.js:1:7"]
    [.string "Error: boom at main.js:1:7"] "Error: boom at main.js:1:7" rfl rfl rfl

/-! ## Routing -/

/-- C1 as stated fails: on the master `error(null)` writes nothing with
`console.log`; the `TypeError` of `null.toString()` is caught and its stack goes
to `console.error`. -/
theorem primary_error_null_no_write :
    (consoleLogs (error primaryEnv [.null]).trace).length ≠ 1
    ∧ consoleLogs (error primaryEnv [.null]).trace = []
    ∧ (consoleErrors (error primaryEnv [.null]).trace).length = 1 := by
  refine ⟨?_, ?_, ?_⟩ <;> decide

/-- C1 amended: on the master no entry point ever calls `process.send`, and
whenever the normalization of the arguments returns a string `n` the call makes
exactly one host call, `console.log` of `[` cyan(timestamp) `] ` followed by the
level-wrapped message, and returns. -/
theorem primary_routing (env : Env) (h : env.isMaster = true) (arguments : List Value) :
    (sends (success env arguments).trace = [] ∧ sends (info env arguments).trace = []
      ∧ sends (warn env arguments).trace = [] ∧ sends (error env arguments).trace = []
      ∧ sends (fatal env arguments).trace = [] ∧ sends (log env arguments).trace = [])
    ∧ (∀ n : String, (_parseMessage env arguments).result = .ok (.string n) →
        success env arguments
          = ⟨[.consoleLog ("[" ++ env.chalk.cyan env.now ++ "] "
              ++ env.chalk.green ("Success: " ++ n))], .ok ()⟩
        ∧ info env arguments
          = ⟨[.consoleLog ("[" ++ env.chalk.cyan env.now ++ "] "
              ++ env.chalk.blue ("Info: " ++ n))], .ok ()⟩
        ∧ warn env arguments
          = ⟨[.consoleLog ("[" ++ env.chalk.cyan env.now ++ "] "
              ++ env.chalk.yellow ("Warn: " ++ n))], .ok ()⟩
        ∧ fatal env arguments
          = ⟨[.consoleLog ("[" ++ env.chalk.cyan env.now ++ "] "
              ++ env.chalk.red ("Fatal: " ++ n))], .ok ()⟩
        ∧ log env arguments
          = ⟨[.consoleLog ("[" ++ env.chalk.cyan env.now ++ "] " ++ n)], .ok ()⟩)
    ∧ (∀ (errors : List Value) (n : String), _parseErrors arguments = .ok errors →
        (_parseMessage env errors).result = .ok (.string n) →
        error env arguments
          = ⟨[.consoleLog ("[" ++ env.chalk.cyan env.now ++ "] " ++ env.chalk.red n)], .ok ()⟩) := by
  have hq := fun args => (parseMessage_quiet env args).1
  have hl := log_primary_sends env h
  refine ⟨⟨?_, ?_, ?_, ?_, ?_, ?_⟩, ?_, ?_⟩
  · exact bind_sends _ _ (hq _) (fun _ => hl _)
  · exact bind_sends _ _ (hq _) (fun _ => hl _)
  · exact bind_sends _ _ (hq _) (fun _ => hl _)
  · have hb : sends (errorBody env arguments).trace = [] :=
      bind_sends _ _ rfl (fun _ => bind_sends _ _ (hq _) (fun _ => hl _))
    rcases error_trace env arguments with ht | ⟨s, ht⟩
    · rw [ht, hb]
    · rw [ht, sends_append, hb]
      rfl
  · exact bind_sends _ _ (hq _) (fun _ => hl _)
  · exact bind_sends _ _ (hq _) (fun _ => hl _)
  · intro n hn
    obtain ⟨h1, h2, h3, h4, h5⟩ := entries_eq_log env arguments n hn
    rw [h1, h2, h3, h4, h5]
    simp [log_primary env h]
  · intro errors n he hn
    rw [error_eq_log env arguments errors n he hn (by rw [log_primary env h]),
      log_primary env h]

/-- Witness for C1 amended: `info("server started")` on the master. -/
theorem primary_routing_witness :
    info primaryEnv [.string "server started"]
      = ⟨[.consoleLog ("[" ++ primaryEnv.chalk.cyan primaryEnv.now ++ "] "
          ++ primaryEnv.chalk.blue ("Info: " ++ "server started"))], .ok ()⟩ :=
  ((primary_routing primaryEnv rfl [.string "server started"]).2.1 "server started" rfl).2.1

/-- C2 as stated fails: on a worker `warn(Symbol("tag"))` and `error(null)` send
nothing; the first throws the `TypeError` of `join` to its caller, the second
writes the caught stack with `console.error`. -/
theorem worker_no_send :
    (sends (warn workerEnv [.symbol "tag"]).trace).length ≠ 1
    ∧ sends (warn workerEnv [.symbol "tag"]).trace = []
    ∧ sends (error workerEnv [.null]).trace = []
    ∧ (consoleErrors (error workerEnv [.null]).trace).length = 1 := by
  refine ⟨?_, ?_, ?_, ?_⟩ <;> decide

/-- C2 amended: on a worker no entry point ever calls `console.log`, and whenever
the normalization of the arguments returns a string `n` the call hands
`process.send` exactly one payload, of type `logging`, whose data holds the
level-wrapped message, `cluster.worker.id` and `cluster.worker.process.pid`. -/
theorem worker_routing (env : Env) (h : env.isMaster = false) (arguments : List Value) :
    (consoleLogs (success env arguments).trace = [] ∧ consoleLogs (info env arguments).trace = []
      ∧ consoleLogs (warn env arguments).trace = [] ∧ consoleLogs (error env arguments).trace = []
      ∧ consoleLogs (fatal env arguments).trace = [] ∧ consoleLogs (log env arguments).trace = [])
    ∧ (∀ n : String, (_parseMessage env arguments).result = .ok (.string n) →
        (success env arguments).trace
          = [.send ⟨"logging", ⟨env.chalk.green ("Success: " ++ n), env.workerId, env.workerPid⟩⟩]
        ∧ (info env arguments).trace
          = [.send ⟨"logging", ⟨env.chalk.blue ("Info: " ++ n), env.workerId, env.workerPid⟩⟩]
        ∧ (warn env arguments).trace
          = [.send ⟨"logging", ⟨env.chalk.yellow ("Warn: " ++ n), env.workerId, env.workerPid⟩⟩]
        ∧ (fatal env arguments).trace
          = [.send ⟨"logging", ⟨env.chalk.red ("Fatal: " ++ n), env.workerId, env.workerPid⟩⟩]
        ∧ (log env arguments).trace
          = [.send ⟨"logging", ⟨n, env.workerId, env.workerPid⟩⟩])
    ∧ (∀ (errors : List Value) (n : String), _parseErrors arguments = .ok errors →
        (_parseMessage env errors).result = .ok (.string n) →
        sends (error env arguments).trace
          = [⟨"logging", ⟨env.chalk.red n, env.workerId, env.workerPid⟩⟩]) := by
  have hq := fun args => (parseMessage_quiet env args).2
  have hl := log_worker_consoleLogs env h
  refine ⟨⟨?_, ?_, ?_, ?_, ?_, ?_⟩, ?_, ?_⟩
  · exact bind_consoleLogs _ _ (hq _) (fun _ => hl _)
  · exact bind_consoleLogs _ _ (hq _) (fun _ => hl _)
  · exact bind_consoleLogs _ _ (hq _) (fun _ => hl _)
  · have hb : consoleLogs (errorBody env arguments).trace = [] :=
      bind_consoleLogs _ _ rfl (fun _ => bind_consoleLogs _ _ (hq _) (fun _ => hl _))
    rcases error_trace env arguments with ht | ⟨s, ht⟩
    · rw [ht, hb]
    · rw [ht, consoleLogs_append, hb]
      rfl
  · exact bind_consoleLogs _ _ (hq _) (fun _ => hl _)
  · exact bind_consoleLogs _ _ (hq _) (fun _ => hl _)
  · intro n hn
    obtain ⟨h1, h2, h3, h4, h5⟩ := entries_eq_log env arguments n hn
    rw [h1, h2, h3, h4, h5]
    simp [log_worker_trace env h]
  · intro errors n he hn
    have hb := errorBody_of_results env arguments errors n he hn
    rcases error_trace env arguments with ht | ⟨s, ht⟩
    · rw [ht, hb, log_worker_trace env h]
      rfl
    · rw [ht, hb, log_worker_trace env h]
      rfl

/-- Witness for C2 amended: worker 3 with pid 4471 calls `warn("disk low")`. -/
theorem worker_routing_witness :
    (warn workerEnv [.string "disk low"]).trace
      = [.send ⟨"logging", ⟨workerEnv.chalk.yellow ("Warn: " ++ "disk low"), 3, 4471⟩⟩] :=
  ((worker_routing workerEnv rfl [.string "disk low"]).2.1 "disk low" rfl).2.2.1

/-! ## The handler of `error` -/

/-- C7 at the failing input: when the `toString` of an argument throws `null`, the
handler of `error` fails reading `e.stack`; in either role nothing is written
with `console.error` and the `TypeError` of that read leaves `error`.  The same
happens when the thrown value is an object whose `stack` accessor throws. -/
theorem error_propagates_null_throw :
    (error primaryEnv [nullThrower]).result
        = .error (typeError "Cannot read properties of null (reading 'stack')")
    ∧ (error primaryEnv [nullThrower]).trace = []
    ∧ consoleErrors (error primaryEnv [nullThrower]).trace = []
    ∧ (error workerEnv [nullThrower]).result
        = .error (typeError "Cannot read properties of null (reading 'stack')")
    ∧ (error workerEnv [nullThrower]).trace = []
    ∧ consoleErrors (error workerEnv [nullThrower]).trace = []
    ∧ (error primaryEnv [stacklessThrower]).result
        = .error (typeError "stack is not available")
    ∧ (error primaryEnv [stacklessThrower]).trace = [] :=
  ⟨rfl, rfl, rfl, rfl, rfl, rfl, rfl, rfl⟩

end TeoLogger
